import Mathlib

/-
Verification of the cffm layered-configuration engine
(src/lib/cffm: config.py, field.py, multi.py, source.py).

Shallow embedding notes:
- The MISSING sentinel of field.py becomes Option.none; a leaf slot of a
  configuration instance is an Option value.
- multi.py references recurse_fields and FieldPath (from cffm.config and
  cffm.field), but neither is defined under src/.  Following the spec
  (section 4.3), an instance is therefore viewed through leaf-path
  indexing: recurse_fields enumerates a fixed, deterministic list of leaf
  DataField paths, and config[path] reads or writes the slot of that leaf.
  Those two pieces are modelled from the spec; every algorithm on top of
  them is translated from the source.
- Python dicts keyed by source name become association lists kept in
  insertion order, matching dict insertion-order semantics.
-/

namespace Cffm

/-- Modelled from the spec: a configuration instance observed through
FieldPath indexing (spec section 4.3; FieldPath and recurse_fields are
referenced by src/lib/cffm/multi.py but are not defined under src/).
The instance maps every leaf DataField path to its stored slot, where
Option.none is the MISSING sentinel of src/lib/cffm/field.py. -/
abbrev Inst (P V : Type) := P → Option V

/-- Embedding of a single path write, config[path] = value
(Config.dunder-setitem in src/lib/cffm/config.py resolving through the
field-instance mapping; the path form is modelled from spec section 4.3).
Writing stores the value at that leaf; DataField.convert is the identity
on values already of the declared type, and maps MISSING to MISSING. -/
def updateInst {P V : Type} [DecidableEq P] (c : Inst P V) (p : P) (v : Option V) :
    Inst P V :=
  fun q => if q = p then v else c q

/-- Embedding of the inner loop of MultiSourceConfig.build-merged
(src/lib/cffm/multi.py lines 31-34): scan the loaded per-source instances
in reversed insertion order and return the first non-MISSING value found,
or MISSING when every source is MISSING at this path. -/
def mergeScan {P V : Type} (cfgs : List (Inst P V)) (p : P) : Option V :=
  (cfgs.reverse).findSome? (fun c => c p)

/-- One iteration of the outer loop of MultiSourceConfig.build-merged:
for a DataField path, write the first non-MISSING reversed-scan value into
the merged instance, or leave the leaf untouched when the scan fails. -/
def mergeStep {P V : Type} [DecidableEq P] (cfgs : List (Inst P V))
    (config : Inst P V) (p : P) : Inst P V :=
  match mergeScan cfgs p with
  | some v => updateInst config p (some v)
  | none => config

/-- Embedding of MultiSourceConfig.build-merged (src/lib/cffm/multi.py
lines 27-35): start from a fresh fully-MISSING instance (Config() sets
every field to MISSING during construction, src/lib/cffm/config.py line
57) and fold the per-path merge step over all leaf DataField paths
enumerated by recurse_fields. The cfgs argument lists the loaded
per-source instances in source-list (insertion) order, lowest precedence
first. -/
def buildMerged {P V : Type} [DecidableEq P] (paths : List P)
    (cfgs : List (Inst P V)) : Inst P V :=
  paths.foldl (mergeStep cfgs) (fun _ => none)

theorem mergeScan_nil {P V : Type} (p : P) :
    mergeScan ([] : List (Inst P V)) p = none := rfl

theorem mergeScan_cons {P V : Type} (c : Inst P V) (l : List (Inst P V)) (p : P) :
    mergeScan (c :: l) p = (mergeScan l p).or (c p) := by
  simp only [mergeScan, List.reverse_cons, List.findSome?_append]
  rcases hc : c p with _ | v <;> simp [List.findSome?, hc]

theorem mergeScan_append {P V : Type} (l₁ l₂ : List (Inst P V)) (p : P) :
    mergeScan (l₁ ++ l₂) p = (mergeScan l₂ p).or (mergeScan l₁ p) := by
  simp [mergeScan, List.findSome?_append]

theorem mergeScan_eq_none_iff {P V : Type} (cfgs : List (Inst P V)) (p : P) :
    mergeScan cfgs p = none ↔ ∀ c ∈ cfgs, c p = none := by
  simp [mergeScan, List.findSome?_eq_none_iff]

theorem mergeScan_highest {P V : Type} (cfgs : List (Inst P V)) (p : P)
    (j : Nat) (hj : j < cfgs.length) (v : V)
    (hv : cfgs[j] p = some v)
    (hhi : ∀ c ∈ cfgs.drop (j+1), c p = none) :
    mergeScan cfgs p = some v := by
  have hdecomp : cfgs = cfgs.take j ++ cfgs[j] :: cfgs.drop (j+1) := by
    conv_lhs => rw [← List.take_append_drop j cfgs]
    rw [List.drop_eq_getElem_cons hj]
  have h1 : mergeScan cfgs p
      = (mergeScan (cfgs[j] :: cfgs.drop (j+1)) p).or (mergeScan (cfgs.take j) p) := by
    conv_lhs => rw [hdecomp]
    exact mergeScan_append _ _ _
  have h2 : mergeScan (cfgs.drop (j+1)) p = none :=
    (mergeScan_eq_none_iff _ _).mpr hhi
  rw [h1, mergeScan_cons, h2, hv]
  rfl

theorem mergeStep_apply {P V : Type} [DecidableEq P] (cfgs : List (Inst P V))
    (config : Inst P V) (q p : P) :
    mergeStep cfgs config q p
      = if p = q ∧ (mergeScan cfgs q).isSome then mergeScan cfgs q else config p := by
  unfold mergeStep
  rcases hscan : mergeScan cfgs q with _ | v
  · simp [hscan]
  · by_cases hpq : p = q
    · simp [updateInst, hpq, hscan]
    · simp [updateInst, hpq, hscan]

theorem buildMerged_foldl_apply {P V : Type} [DecidableEq P]
    (cfgs : List (Inst P V)) (paths : List P) (c0 : Inst P V) (p : P) :
    paths.foldl (mergeStep cfgs) c0 p
      = if p ∈ paths ∧ (mergeScan cfgs p).isSome then mergeScan cfgs p else c0 p := by
  induction paths generalizing c0 with
  | nil => simp
  | cons q rest ih =>
    rw [List.foldl_cons, ih]
    by_cases hmem : p ∈ rest
    · by_cases hsome : (mergeScan cfgs p).isSome
      · simp [hmem, hsome]
      · rw [mergeStep_apply]
        by_cases hpq : p = q
        · subst hpq
          simp [hmem, hsome]
        · simp [hmem, hsome, hpq]
    · by_cases hpq : p = q
      · subst hpq
        by_cases hsome : (mergeScan cfgs p).isSome
        · simp [hmem, hsome, mergeStep_apply]
        · simp [hmem, hsome, mergeStep_apply]
      · simp [hmem, hpq, mergeStep_apply]

theorem buildMerged_apply {P V : Type} [DecidableEq P] (paths : List P)
    (cfgs : List (Inst P V)) (p : P) (hp : p ∈ paths) :
    buildMerged paths cfgs p = mergeScan cfgs p := by
  unfold buildMerged
  rw [buildMerged_foldl_apply]
  by_cases hsome : (mergeScan cfgs p).isSome
  · simp [hp, hsome]
  · simp only [Option.isSome] at hsome
    rcases hscan : mergeScan cfgs p with _ | v
    · simp [hp, hscan]
    · rw [hscan] at hsome; simp at hsome

theorem buildMerged_apply_not_mem {P V : Type} [DecidableEq P] (paths : List P)
    (cfgs : List (Inst P V)) (p : P) (hp : p ∉ paths) :
    buildMerged paths cfgs p = none := by
  unfold buildMerged
  rw [buildMerged_foldl_apply]
  simp [hp]

/-- One iteration of the loop of MultiSourceConfig.build-custom
(src/lib/cffm/multi.py lines 46-49): for a DataField path, when the live
merged instance differs from the freshly rebuilt merge at that path,
write the live value into the diff instance, else leave it untouched. -/
def customStep {P V : Type} [DecidableEq P] [DecidableEq V]
    (liveMerged merged_cfg : Inst P V) (config : Inst P V) (p : P) : Inst P V :=
  if liveMerged p ≠ merged_cfg p then updateInst config p (liveMerged p) else config

/-- Embedding of MultiSourceConfig.build-custom (src/lib/cffm/multi.py
lines 42-51): rebuild the merge from the CURRENT source caches, namely
self.build-merged over self.configs, which includes every source, then
fold the per-path diff step over all leaf DataField paths, starting from
a fresh fully-MISSING instance. liveMerged embeds self.merged-config, the
live merged instance. -/
def buildCustom {P V : Type} [DecidableEq P] [DecidableEq V] (paths : List P)
    (liveMerged : Inst P V) (cfgs : List (Inst P V)) : Inst P V :=
  let merged_cfg := buildMerged paths cfgs
  paths.foldl (customStep liveMerged merged_cfg) (fun _ => none)

/-- Spec-side definition, written from the words of the spec (section 4.5
diff algorithm) for comparison with the embedded buildCustom: for each
leaf path, recompute what the merge would yield WITHOUT the custom layer;
if the current merged value differs, record it explicitly in the diff
instance, else leave it absent. The cfgsWithoutCustom argument lists the
loaded instances of every source except the custom layer. -/
def buildCustomSpec {P V : Type} [DecidableEq P] [DecidableEq V] (paths : List P)
    (liveMerged : Inst P V) (cfgsWithoutCustom : List (Inst P V)) : Inst P V :=
  fun p =>
    if p ∈ paths then
      if liveMerged p ≠ buildMerged paths cfgsWithoutCustom p then liveMerged p
      else none
    else none

theorem customStep_apply {P V : Type} [DecidableEq P] [DecidableEq V]
    (live m config : Inst P V) (q p : P) :
    customStep live m config q p
      = if p = q ∧ live q ≠ m q then live q else config p := by
  unfold customStep
  by_cases hne : live q ≠ m q
  · by_cases hpq : p = q
    · simp [updateInst, hpq, hne]
    · simp [updateInst, hpq, hne]
  · simp [hne]

theorem buildCustom_foldl_apply {P V : Type} [DecidableEq P] [DecidableEq V]
    (live m : Inst P V) (paths : List P) (c0 : Inst P V) (p : P) :
    paths.foldl (customStep live m) c0 p
      = if p ∈ paths ∧ live p ≠ m p then live p else c0 p := by
  induction paths generalizing c0 with
  | nil => simp
  | cons q rest ih =>
    rw [List.foldl_cons, ih]
    by_cases hmem : p ∈ rest
    · by_cases hne : live p ≠ m p
      · simp [hmem, hne]
      · rw [customStep_apply]
        by_cases hpq : p = q
        · subst hpq
          simp [hmem, hne]
        · simp [hmem, hne, hpq]
    · by_cases hpq : p = q
      · subst hpq
        by_cases hne : live p ≠ m p
        · simp [hmem, hne, customStep_apply]
        · simp [hmem, hne, customStep_apply]
      · simp [hmem, hpq, customStep_apply]

theorem buildCustom_apply {P V : Type} [DecidableEq P] [DecidableEq V]
    (paths : List P) (live : Inst P V) (cfgs : List (Inst P V)) (p : P)
    (hp : p ∈ paths) :
    buildCustom paths live cfgs p
      = if live p = buildMerged paths cfgs p then none else live p := by
  unfold buildCustom
  rw [buildCustom_foldl_apply]
  by_cases heq : live p = buildMerged paths cfgs p
  · simp [hp, heq]
  · simp [hp, heq]

theorem buildCustom_apply_not_mem {P V : Type} [DecidableEq P] [DecidableEq V]
    (paths : List P) (live : Inst P V) (cfgs : List (Inst P V)) (p : P)
    (hp : p ∉ paths) :
    buildCustom paths live cfgs p = none := by
  unfold buildCustom
  rw [buildCustom_foldl_apply]
  simp [hp]

/-- C1: for every schema (list of leaf paths) and every ordered list of
loaded source instances, lowest precedence first, the merged value of
every leaf data field equals the value from the highest-indexed source
whose loaded instance holds a non-MISSING value for that field, and
equals MISSING when every source holds MISSING for that field. -/
theorem merged_value_is_highest_precedence_source {P V : Type} [DecidableEq P]
    (paths : List P) (cfgs : List (Inst P V)) (p : P) (hp : p ∈ paths) :
    ((∀ c ∈ cfgs, c p = none) → buildMerged paths cfgs p = none) ∧
    (∀ (j : Nat) (hj : j < cfgs.length) (v : V),
      cfgs[j] p = some v →
      (∀ c ∈ cfgs.drop (j+1), c p = none) →
      buildMerged paths cfgs p = some v) := by
  constructor
  · intro hall
    rw [buildMerged_apply paths cfgs p hp]
    exact (mergeScan_eq_none_iff _ _).mpr hall
  · intro j hj v hv hhi
    rw [buildMerged_apply paths cfgs p hp]
    exact mergeScan_highest cfgs p j hj v hv hhi

/-- Witness for C1 at a concrete input: three sources over one leaf path,
the highest-indexed non-MISSING source (index 2) wins. -/
theorem merged_value_is_highest_precedence_source_witness :
    buildMerged [0]
      [fun _ => (some 1 : Option Nat), fun _ => none, fun _ => some 2]
      (0 : Nat) = some 2 :=
  (merged_value_is_highest_precedence_source [0]
      [fun _ => (some 1 : Option Nat), fun _ => none, fun _ => some 2]
      0 (by decide)).2
    2 (by decide) 2 rfl (by intro c hc; simp at hc)

/-- Counterexample to C2 as stated: one leaf path, a non-custom source
holding 1 and a custom layer holding 2; the live merged value is 2.  A
re-merge WITHOUT the custom layer yields 1, which differs from the live
value 2, so the claim says the diff records 2; but build-custom in the
source re-merges ALL sources (custom included), obtains 2, finds it equal
to the live value and leaves the field MISSING. -/
theorem build_custom_claim_counterexample :
    buildCustom [0]
        (buildMerged [0] [fun _ => (some 1 : Option Nat), fun _ => some 2])
        [fun _ => (some 1 : Option Nat), fun _ => some 2] 0 = none
    ∧ buildCustomSpec [0]
        (buildMerged [0] [fun _ => (some 1 : Option Nat), fun _ => some 2])
        [fun _ => (some 1 : Option Nat)] 0 = some 2 := by
  constructor <;> decide

/-- C2 (amended): build-custom compares the live merged instance against a
fresh re-merge of ALL sources, the custom layer included (line 43 of
src/lib/cffm/multi.py rebuilds from the unfiltered source caches): for
each leaf data field it yields the current merged value when that value
differs from the full re-merge at that field, and leaves the field
MISSING when the two values are equal. -/
theorem build_custom_records_diff_from_full_remerge {P V : Type}
    [DecidableEq P] [DecidableEq V]
    (paths : List P) (live : Inst P V) (cfgs : List (Inst P V)) (p : P)
    (hp : p ∈ paths) :
    buildCustom paths live cfgs p
      = if live p = buildMerged paths cfgs p then none else live p :=
  buildCustom_apply paths live cfgs p hp

/-- Witness for the amended C2 at a concrete input: live merged value 5
differs from the re-merged value 1, so the diff records 5. -/
theorem build_custom_records_diff_witness :
    buildCustom [0] (fun _ => (some 5 : Option Nat)) [fun _ => some 1] 0
      = some 5 := by
  have h := build_custom_records_diff_from_full_remerge [0]
    (fun _ => (some 5 : Option Nat)) [fun _ => some 1] 0 (by decide)
  rw [h]
  decide

/-- Error taxonomy of the embedding.  The spec (section 7) names these
FrozenConfigError, TypeConversionError, DuplicateSourceError and
SourceNotFoundError; in the source they surface as TypeError,
AttributeError, ValueError or KeyError instances raised at the cited
lines. -/
inductive Err where
  | frozenConfigError
  | typeConversionError
  | duplicateSourceError
  | sourceNotFoundError
  | keyError
deriving DecidableEq

/-- Embedding of a Source (src/lib/cffm/source.py): a layer name plus the
Config instance its load method produces for the fixed schema.  load is
modelled as deterministic data because every operation below calls it at
most once per source. -/
structure Src (P V : Type) where
  name : String
  loadInst : Inst P V

/-- Embedding of the MultiSourceConfig state (src/lib/cffm/multi.py): the
schema as its recurse_fields leaf paths, the ordered source list, the
per-source cache of loaded instances as an insertion-ordered association
list keyed by source name (a Python dict), and the derived merged
instance.  The frozen-flag preservation of update-merged only touches the
frozen state, which the frozen-machinery model below covers; the value
content of every rebuilt merge is build-merged over the cached
instances. -/
structure MSC (P V : Type) where
  paths : List P
  sources : List (Src P V)
  configs : List (String × Inst P V)
  merged : Inst P V

/-- Embedding of MultiSourceConfig construction (src/lib/cffm/multi.py
lines 16-22): load every source in list order into the cache dict and
build the merged instance. -/
def initMSC {P V : Type} [DecidableEq P] (paths : List P)
    (sources : List (Src P V)) : MSC P V :=
  let configs := sources.map (fun s => (s.name, s.loadInst))
  { paths := paths, sources := sources, configs := configs,
    merged := buildMerged paths (configs.map Prod.snd) }

/-- Embedding of Python list.insert(i, x) for a non-negative index, as
used by add-source; an index at or beyond the end appends, as in
Python. -/
def listInsert {α : Type} (l : List α) (i : Nat) (x : α) : List α :=
  l.take i ++ x :: l.drop i

/-- Embedding of lines 95-98 of src/lib/cffm/multi.py: append the new
source when no index is given, else insert it at the index. -/
def insertSource {P V : Type} (sources : List (Src P V)) (source : Src P V)
    (index : Option Nat) : List (Src P V) :=
  match index with
  | none => sources ++ [source]
  | some i => listInsert sources i source

/-- Embedding of the dict comprehension at lines 100-105 of
src/lib/cffm/multi.py: rebuild the cache dict in new source-list order,
reusing the cached instance of every source that has one and loading the
sources without a cache entry. -/
def reloadConfigs {P V : Type} (configs : List (String × Inst P V))
    (sources' : List (Src P V)) : List (String × Inst P V) :=
  sources'.map (fun src =>
    (src.name, match List.lookup src.name configs with
      | some cfg => cfg
      | none => src.loadInst))

/-- Embedding of MultiSourceConfig.add-source (src/lib/cffm/multi.py
lines 91-106): fail when the name already exists; append the new source
or insert it at the given index; rebuild the cache dict; rebuild the
merged instance. -/
def addSource {P V : Type} [DecidableEq P] (st : MSC P V) (source : Src P V)
    (index : Option Nat) : Except Err (MSC P V) :=
  if source.name ∈ st.sources.map Src.name then
    .error .duplicateSourceError
  else
    .ok { st with
      sources := insertSource st.sources source index
      configs := reloadConfigs st.configs (insertSource st.sources source index)
      merged := buildMerged st.paths
        ((reloadConfigs st.configs (insertSource st.sources source index)).map
          Prod.snd) }

/-- Embedding of the enumerate-and-delete loop of
MultiSourceConfig.del-source (src/lib/cffm/multi.py lines 109-114):
remove the first source whose name matches, or report failure, matching
the for-else clause that raises ValueError. -/
def removeFirstByName {P V : Type} (name : String) :
    List (Src P V) → Option (List (Src P V))
  | [] => none
  | s :: rest =>
    if s.name = name then some rest
    else (removeFirstByName name rest).map (fun l => s :: l)

/-- Embedding of a Python dict deletion, del d[k], on an
insertion-ordered association list with unique keys: drop the first entry
carrying the key, or fail with KeyError when the key is absent. -/
def dictDel {α : Type} (d : List (String × α)) (k : String) :
    Option (List (String × α)) :=
  match d with
  | [] => none
  | (k', v) :: rest =>
    if k' = k then some rest
    else (dictDel rest k).map (fun l => (k', v) :: l)

/-- Embedding of MultiSourceConfig.del-source (src/lib/cffm/multi.py
lines 108-117): delete the first source with the given name, delete its
cache entry, and rebuild the merged instance. -/
def delSource {P V : Type} [DecidableEq P] (st : MSC P V) (name : String) :
    Except Err (MSC P V) :=
  match removeFirstByName name st.sources with
  | none => .error .sourceNotFoundError
  | some sources' =>
    match dictDel st.configs name with
    | none => .error .keyError
    | some configs' =>
      .ok { st with
        sources := sources'
        configs := configs'
        merged := buildMerged st.paths (configs'.map Prod.snd) }

theorem mergeScan_singleton {P V : Type} (c : Inst P V) (p : P) :
    mergeScan [c] p = c p := by
  rw [mergeScan_cons, mergeScan_nil, Option.none_or]

/-- Counterexample to C3 as stated: sources s1 (value 1) and custom
(value 2) over one leaf path; the original merged value is 2.  Removing
the custom layer rebuilds the merged instance to 1, build-custom then
diffs that live value 1 against a re-merge that also yields 1 and
produces an all-MISSING diff, and re-inserting the diff as the custom
layer merges to 1, not the original 2. -/
theorem roundtrip_claim_counterexample :
    ((delSource (initMSC [0] [⟨"s1", fun _ => (some 1 : Option Nat)⟩,
          ⟨"custom", fun _ => some 2⟩]) "custom").bind (fun st1 =>
        (addSource st1 ⟨"custom",
            buildCustom st1.paths st1.merged (st1.configs.map Prod.snd)⟩
          none).map (fun st2 => st2.merged 0)))
      = .ok (some 1)
    ∧ (initMSC [0] [⟨"s1", fun _ => (some 1 : Option Nat)⟩,
        ⟨"custom", fun _ => some 2⟩]).merged 0 = some 2 := by
  constructor <;> rfl

/-- C3 (amended, changed no more than the counterexample forces): the
round trip holds without removing the custom layer first.  For every
multi-source configuration, merging the instance produced by
build-custom as an additional highest-precedence layer on top of ALL
current sources reproduces the live merged instance at every leaf data
field at which the live merged value is non-MISSING or the full re-merge
is MISSING (the diff instance cannot represent an explicit deletion of a
source-provided value). -/
theorem build_custom_overlay_reproduces_live_merged {P V : Type}
    [DecidableEq P] [DecidableEq V]
    (paths : List P) (cfgs : List (Inst P V)) (live : Inst P V) (p : P)
    (hp : p ∈ paths)
    (hnd : live p = none → buildMerged paths cfgs p = none) :
    buildMerged paths (cfgs ++ [buildCustom paths live cfgs]) p = live p := by
  rw [buildMerged_apply _ _ _ hp, mergeScan_append, mergeScan_singleton,
    buildCustom_apply _ _ _ _ hp]
  by_cases heq : live p = buildMerged paths cfgs p
  · rw [if_pos heq, Option.none_or, ← buildMerged_apply paths cfgs p hp]
    exact heq.symm
  · rw [if_neg heq]
    rcases hlive : live p with _ | w
    · exact absurd (hlive.trans (hnd hlive).symm) heq
    · rfl

/-- Witness for the amended C3 at a concrete input: live merged value 7
over a single source holding 1; overlaying the produced diff on the
re-merge yields 7 again. -/
theorem build_custom_overlay_witness :
    buildMerged [0] ([fun _ => (some 1 : Option Nat)] ++
        [buildCustom [0] (fun _ => (some 7 : Option Nat)) [fun _ => some 1]])
      0 = some 7 :=
  build_custom_overlay_reproduces_live_merged [0] [fun _ => some 1]
    (fun _ => some 7) 0 (by decide) (by decide)

theorem lookup_map_name {P V : Type} (g : Src P V → Inst P V) :
    ∀ (l : List (Src P V)) (s : Src P V), s ∈ l → (l.map Src.name).Nodup →
      List.lookup s.name (l.map (fun t => (t.name, g t))) = some (g s) := by
  intro l
  induction l with
  | nil => intro s hs _; simp at hs
  | cons t rest ih =>
    intro s hs hnd
    rw [List.map_cons] at hnd
    have hnd' := List.nodup_cons.mp hnd
    rcases List.mem_cons.mp hs with hst | hsr
    · subst hst
      simp [List.lookup]
    · have hne : s.name ≠ t.name := by
        intro h
        exact hnd'.1 (h ▸ List.mem_map_of_mem Src.name hsr)
      have hbeq : (s.name == t.name) = false := beq_eq_false_iff_ne.mpr hne
      simp only [List.map_cons, List.lookup, hbeq]
      exact ih s hsr hnd'.2

theorem removeFirstByName_append {P V : Type} (s : Src P V)
    (l₂ : List (Src P V)) :
    ∀ l₁ : List (Src P V), (∀ t ∈ l₁, t.name ≠ s.name) →
      removeFirstByName s.name (l₁ ++ s :: l₂) = some (l₁ ++ l₂) := by
  intro l₁
  induction l₁ with
  | nil => intro _; simp [removeFirstByName]
  | cons t rest ih =>
    intro h
    have hne := h t (List.mem_cons_self t rest)
    simp only [List.cons_append, removeFirstByName, if_neg hne, List.append_eq]
    rw [ih (fun u hu => h u (List.mem_cons_of_mem t hu))]
    rfl

theorem dictDel_append {α : Type} (k : String) (v : α)
    (d₂ : List (String × α)) :
    ∀ d₁ : List (String × α), (∀ kv ∈ d₁, kv.1 ≠ k) →
      dictDel (d₁ ++ (k, v) :: d₂) k = some (d₁ ++ d₂) := by
  intro d₁
  induction d₁ with
  | nil => intro _; simp [dictDel]
  | cons kv rest ih =>
    intro h
    have hne := h kv (List.mem_cons_self kv rest)
    rcases kv with ⟨k', v'⟩
    simp only [List.cons_append, dictDel, if_neg hne, List.append_eq]
    rw [ih (fun u hu => h u (List.mem_cons_of_mem _ hu))]
    rfl

theorem insertSource_split {P V : Type} (sources : List (Src P V))
    (s : Src P V) (index : Option Nat) :
    ∃ l₁ l₂, insertSource sources s index = l₁ ++ s :: l₂
      ∧ sources = l₁ ++ l₂ := by
  cases index with
  | none => exact ⟨sources, [], rfl, by simp⟩
  | some i =>
    exact ⟨sources.take i, sources.drop i, rfl,
      (List.take_append_drop i sources).symm⟩

/-- C7: for every multi-source configuration in a consistent state (the
cache dict holds, in source-list order, one loaded instance per source;
source names pairwise distinct; the merged instance is the build-merged
of the cache values) and every source whose name is not already present,
adding that source, appended or at any index, and then removing it by
name both succeed, and the final merged instance agrees with the merged
instance before the addition on every leaf data field. -/
theorem add_then_remove_source_restores_merged {P V : Type} [DecidableEq P]
    (st : MSC P V) (g : Src P V → Inst P V) (s : Src P V) (index : Option Nat)
    (hsync : st.configs = st.sources.map (fun t => (t.name, g t)))
    (hnodup : (st.sources.map Src.name).Nodup)
    (hfresh : s.name ∉ st.sources.map Src.name)
    (hm : st.merged = buildMerged st.paths (st.configs.map Prod.snd)) :
    ∀ p : P, ((addSource st s index).bind
        (fun st1 => delSource st1 s.name)).map (fun st2 => st2.merged p)
      = .ok (st.merged p) := by
  intro p
  obtain ⟨l₁, l₂, hins, hsrc⟩ := insertSource_split st.sources s index
  have hl₁sub : ∀ t ∈ l₁, t ∈ st.sources := by
    intro t ht; rw [hsrc]; exact List.mem_append_left l₂ ht
  have hl₂sub : ∀ t ∈ l₂, t ∈ st.sources := by
    intro t ht; rw [hsrc]; exact List.mem_append_right l₁ ht
  have hl₁ne : ∀ t ∈ l₁, t.name ≠ s.name := by
    intro t ht h
    exact hfresh (h ▸ List.mem_map_of_mem Src.name (hl₁sub t ht))
  have hft : ∀ t ∈ st.sources,
      (t.name, match List.lookup t.name st.configs with
        | some cfg => cfg
        | none => t.loadInst) = (t.name, g t) := by
    intro t ht
    rw [hsync, lookup_map_name g st.sources t ht hnodup]
  -- the state produced by add-source
  have hadd : addSource st s index = .ok { st with
      sources := l₁ ++ s :: l₂
      configs := reloadConfigs st.configs (l₁ ++ s :: l₂)
      merged := buildMerged st.paths
        ((reloadConfigs st.configs (l₁ ++ s :: l₂)).map Prod.snd) } := by
    unfold addSource
    rw [if_neg hfresh, hins]
  -- the rebuilt cache, decomposed around the inserted source
  have hreload : reloadConfigs st.configs (l₁ ++ s :: l₂)
      = (l₁.map (fun t => (t.name, g t))) ++
        (s.name, match List.lookup s.name st.configs with
          | some cfg => cfg
          | none => s.loadInst) :: (l₂.map (fun t => (t.name, g t))) := by
    unfold reloadConfigs
    rw [List.map_append, List.map_cons]
    congr 1
    · exact List.map_congr_left (fun t ht => hft t (hl₁sub t ht))
    · congr 1
      exact List.map_congr_left (fun t ht => hft t (hl₂sub t ht))
  -- removing the source again restores the source list
  have hremove : removeFirstByName s.name (l₁ ++ s :: l₂) = some (l₁ ++ l₂) :=
    removeFirstByName_append s l₂ l₁ hl₁ne
  -- deleting the cache entry restores the cache dict
  have hdel2 : dictDel (reloadConfigs st.configs (l₁ ++ s :: l₂)) s.name
      = some ((l₁.map (fun t => (t.name, g t))) ++
              (l₂.map (fun t => (t.name, g t)))) := by
    rw [hreload]
    exact dictDel_append s.name _ _ _ (by
      intro kv hkv
      obtain ⟨t, ht, rfl⟩ := List.mem_map.mp hkv
      exact hl₁ne t ht)
  have hconfigs : (l₁.map (fun t => (t.name, g t))) ++
      (l₂.map (fun t => (t.name, g t))) = st.configs := by
    rw [hsync, hsrc, List.map_append]
  have hdel : delSource { st with
      sources := l₁ ++ s :: l₂
      configs := reloadConfigs st.configs (l₁ ++ s :: l₂)
      merged := buildMerged st.paths
        ((reloadConfigs st.configs (l₁ ++ s :: l₂)).map Prod.snd) } s.name
      = .ok { st with
          sources := l₁ ++ l₂
          configs := st.configs
          merged := buildMerged st.paths (st.configs.map Prod.snd) } := by
    unfold delSource
    simp only [hremove, hdel2, hconfigs]
  rw [hadd]
  simp only [Except.bind, hdel, Except.map]
  rw [← hm]

/-- Witness for C7 at a concrete input: a single source named a, adding a
fresh source named b and removing it again leaves the merged leaf value
unchanged. -/
theorem add_then_remove_source_witness :
    ((addSource (initMSC [0] [⟨"a", fun _ => (some 1 : Option Nat)⟩])
          ⟨"b", fun _ => some 2⟩ none).bind
        (fun st1 => delSource st1 "b")).map (fun st2 => st2.merged 0)
      = .ok (some 1) := by
  have h := add_then_remove_source_restores_merged
    (initMSC [0] [⟨"a", fun _ => (some 1 : Option Nat)⟩]) Src.loadInst
    ⟨"b", fun _ => some 2⟩ none rfl (by decide) (by decide) rfl 0
  rw [h]
  rfl

/-- Embedding of ConfigOptions (src/lib/cffm/config.py lines 18-21). -/
structure ConfigOptions where
  frozen : Bool := true
  strict : Bool := false
deriving DecidableEq

/-- Outcome of a Python block over a mutable state: normal completion or
an escaping exception, each carrying the state at exit, since a Python
exception does not roll the state back. -/
inductive PyResult (σ : Type) where
  | ok (st : σ)
  | exn (st : σ)

/-- Embedding of a Python try/finally: run the body, run the finally
clause on the resulting state whether the body completed or raised, and
re-deliver the outcome of the body. -/
def tryFinally {σ : Type} (body : σ → PyResult σ) (finalizer : σ → σ)
    (st : σ) : PyResult σ :=
  match body st with
  | .ok st' => .ok (finalizer st')
  | .exn st' => .exn (finalizer st')

/-- Embedding of the module-level freeze (src/lib/cffm/config.py lines
130-131): set the frozen flag on the options object of the instance. -/
def freeze (o : ConfigOptions) : ConfigOptions := { o with frozen := true }

/-- Embedding of the module-level unfreeze (src/lib/cffm/config.py lines
134-135): clear the frozen flag on the options object. -/
def unfreeze (o : ConfigOptions) : ConfigOptions := { o with frozen := false }

/-- Embedding of the unfrozen context manager (src/lib/cffm/config.py
lines 138-145): capture the current frozen flag, unfreeze, run the body
on the now-mutable options, and in a finally clause write the captured
flag back, whether the body completed normally or raised. -/
def unfrozenCtx (body : ConfigOptions → PyResult ConfigOptions)
    (o : ConfigOptions) : PyResult ConfigOptions :=
  let was_frozen := o.frozen
  tryFinally (fun st => body (unfreeze st))
    (fun st => { st with frozen := was_frozen }) o

/-- C4: for every configuration instance (through its options object) and
every initial frozen state, the scoped unfrozen operation runs the block
on a mutable instance and restores the exact prior frozen state on both
exit paths, normal completion and escaping exception. -/
theorem unfrozen_restores_prior_state (o : ConfigOptions)
    (body : ConfigOptions → PyResult ConfigOptions) :
    (unfreeze o).frozen = false ∧
    (∀ o', unfrozenCtx body o = .ok o' → o'.frozen = o.frozen) ∧
    (∀ o', unfrozenCtx body o = .exn o' → o'.frozen = o.frozen) := by
  refine ⟨rfl, ?_, ?_⟩ <;> intro o' h <;>
    simp only [unfrozenCtx, tryFinally] at h <;>
    rcases hb : body (unfreeze o) with st1 | st1 <;> rw [hb] at h <;>
    cases h <;> rfl

/-- Witness for C4 at a concrete input: starting frozen, with a body that
raises, the flag is frozen again after the exception escapes. -/
theorem unfrozen_restores_prior_state_witness :
    (ConfigOptions.mk true false).frozen = true :=
  (unfrozen_restores_prior_state ⟨true, false⟩ (fun st => .exn st)).2.2
    ⟨true, false⟩ rfl

/-- Identity of a ConfigOptions object on the Python heap, mapped to its
current flags.  Section construction copies the identity, not the flags,
so a parent and its sections observe one shared object. -/
abbrev OptStore := Nat → ConfigOptions

/-- Embedding of assignment to the frozen attribute of one options
object, cfg options frozen = b, at the heap level. -/
def storeSetFrozen (store : OptStore) (i : Nat) (b : Bool) : OptStore :=
  fun j => if j = i then { store j with frozen := b } else store j

/-- Embedding of a constructed Config or Section instance
(src/lib/cffm/config.py): the attribute dict vars(instance), holding one
slot per initialized field, and the heap identity of its options
object. -/
structure PyInst (V : Type) where
  data : List (String × Option V)
  optId : Nat
deriving DecidableEq

/-- Embedding of Section construction (src/lib/cffm/config.py lines
120-127): the section adopts the parent options OBJECT, via the
assignment of parent options to self, so it observes the same heap cell;
Section overrides the option initialisation with a no-op, so the shared
cell is never replaced. -/
def sectionInit {V : Type} (parent : PyInst V)
    (data : List (String × Option V)) : PyInst V :=
  { data := data, optId := parent.optId }

/-- Embedding of DataField (src/lib/cffm/field.py lines 79-106) for one
declared field: the bound attribute name, the optional converter, and
the application of the declared type to a value, collapsing the type()
and UnionType branches of DataField.convert into one function since the
declared type is fixed per field.  A failing application is Option.none
and surfaces as TypeConversionError. -/
structure DataFieldM (V : Type) where
  name : String
  converter : Option (V → Option V)
  typeConv : V → Option V

/-- Embedding of DataField.convert (src/lib/cffm/field.py lines 92-106):
MISSING converts to MISSING before the converter or the declared type is
consulted; otherwise the converter, when present, and else the declared
type is applied to the value. -/
def DataFieldM.convert {V : Type} (f : DataFieldM V) (value : Option V) :
    Except Err (Option V) :=
  match value with
  | none => .ok none
  | some x =>
    match f.converter with
    | some conv =>
      match conv x with
      | some y => .ok (some y)
      | none => .error .typeConversionError
    | none =>
      match f.typeConv x with
      | some y => .ok (some y)
      | none => .error .typeConversionError

/-- Embedding of a Python dict item assignment, data at name becomes v:
replace the value in place when the key exists, else append an entry. -/
def dictSet {α : Type} (d : List (String × α)) (k : String) (v : α) :
    List (String × α) :=
  match d with
  | [] => [(k, v)]
  | (k', v') :: rest =>
    if k' = k then (k, v) :: rest else (k', v') :: dictSet rest k v

/-- Embedding of the Field descriptor write for data fields
(src/lib/cffm/field.py lines 56-65): when the field name is already in
vars(instance) and the instance options are frozen, raise; otherwise
store the converted value.  The comment in the source reads: allow
initialisation but no further modification if instance is frozen. -/
def fieldSet {V : Type} (store : OptStore) (f : DataFieldM V)
    (inst : PyInst V) (value : Option V) : Except Err (PyInst V) :=
  if (List.lookup f.name inst.data).isSome ∧ (store inst.optId).frozen then
    .error .frozenConfigError
  else
    match f.convert value with
    | .ok cv => .ok { inst with data := dictSet inst.data f.name cv }
    | .error e => .error e

/-- Embedding of the Config setattr guard (src/lib/cffm/config.py lines
87-91) for a declared data field of a constructed instance (after
construction the options attribute exists, so the getattr guard
passes): when the options are frozen and the name is a declared field,
raise; else delegate to the Field descriptor write. -/
def configSetattr {V : Type} (store : OptStore) (fields : List String)
    (f : DataFieldM V) (inst : PyInst V) (value : Option V) :
    Except Err (PyInst V) :=
  if (store inst.optId).frozen ∧ f.name ∈ fields then
    .error .frozenConfigError
  else
    fieldSet store f inst value

/-- Embedding of Config item deletion (src/lib/cffm/config.py lines
109-111): deletion resets the field by assigning MISSING through
setattr on the owning instance. -/
def delItem {V : Type} (store : OptStore) (fields : List String)
    (f : DataFieldM V) (inst : PyInst V) : Except Err (PyInst V) :=
  configSetattr store fields f inst none

/-- Instance visible after an operation: the new one on success, the
original on an exception, since a Python raise leaves the instance
untouched. -/
def stateAfter {V : Type} (r : Except Err (PyInst V)) (inst : PyInst V) :
    PyInst V :=
  match r with
  | .ok inst' => inst'
  | .error _ => inst

/-- C5: on a frozen instance, every declared data field that already
holds a value rejects a write with the frozen error, through the setattr
guard and through the Field descriptor alike, and the stored value is
unchanged afterward; the single write that first initializes a field,
reaching the Field descriptor with no stored slot, succeeds even on a
frozen instance and stores the converted value. -/
theorem frozen_write_rejected_init_allowed {V : Type} (store : OptStore)
    (fields : List String) (f : DataFieldM V) (inst : PyInst V)
    (w : Option V) (value : Option V)
    (hfrozen : (store inst.optId).frozen = true)
    (hheld : List.lookup f.name inst.data = some w)
    (hf : f.name ∈ fields) :
    (configSetattr store fields f inst value = .error .frozenConfigError ∧
     fieldSet store f inst value = .error .frozenConfigError ∧
     List.lookup f.name
       (stateAfter (configSetattr store fields f inst value) inst).data
       = some w) ∧
    (∀ (inst₂ : PyInst V) (v₂ cv : Option V),
      List.lookup f.name inst₂.data = none →
      f.convert v₂ = .ok cv →
      fieldSet store f inst₂ v₂
        = .ok { inst₂ with data := dictSet inst₂.data f.name cv }) := by
  have hguard : configSetattr store fields f inst value
      = .error .frozenConfigError := by
    unfold configSetattr
    rw [if_pos ⟨hfrozen, hf⟩]
  have hfs : fieldSet store f inst value = .error .frozenConfigError := by
    unfold fieldSet
    rw [if_pos ⟨by rw [hheld]; rfl, hfrozen⟩]
  refine ⟨⟨hguard, hfs, ?_⟩, ?_⟩
  · rw [hguard]
    exact hheld
  · intro inst₂ v₂ cv hnone hconv
    unfold fieldSet
    rw [if_neg (by rw [hnone]; exact fun h => by simp at h), hconv]

/-- Witness for C5 at a concrete input: a frozen instance holding 3 in
field a rejects writing 9 and keeps 3; a first initialisation on a
frozen instance succeeds. -/
theorem frozen_write_rejected_init_allowed_witness :
    configSetattr (fun _ => ⟨true, false⟩) ["a"]
        ⟨"a", none, fun v => some v⟩ ⟨[("a", some (3 : Nat))], 0⟩ (some 9)
      = .error .frozenConfigError ∧
    fieldSet (fun _ => ⟨true, false⟩) ⟨"a", none, fun v => some v⟩
        (⟨[], 0⟩ : PyInst Nat) (some 9)
      = .ok ⟨[("a", some 9)], 0⟩ := by
  have h := frozen_write_rejected_init_allowed (fun _ => ⟨true, false⟩)
    ["a"] ⟨"a", none, fun v => some v⟩ ⟨[("a", some (3 : Nat))], 0⟩
    (some 3) (some 9) rfl rfl (by decide)
  exact ⟨h.1.1, h.2 ⟨[], 0⟩ (some 9) (some 9) rfl rfl⟩

theorem convert_error_is_type_error {V : Type} (f : DataFieldM V)
    (value : Option V) (e : Err) (h : f.convert value = .error e) :
    e = .typeConversionError := by
  rcases value with _ | x
  · simp [DataFieldM.convert] at h
  · rcases hconv : f.converter with _ | conv
    · rcases htc : f.typeConv x with _ | y
      · simp [DataFieldM.convert, hconv, htc] at h
        exact h.symm
      · simp [DataFieldM.convert, hconv, htc] at h
    · rcases hc : conv x with _ | y
      · simp [DataFieldM.convert, hconv, hc] at h
        exact h.symm
      · simp [DataFieldM.convert, hconv, hc] at h

/-- Counterexample to C6 as stated: a fully frozen tree with a root
instance (options cell 0, field a holding 1) and one nested section
constructed from it, which therefore shares options cell 0.  Unfreezing
just the section, without requesting any cascade, leaves a write to the
ANCESTOR root accepted: the root does not reject field writes any
more. -/
theorem unfreeze_section_claim_counterexample :
    configSetattr
        (storeSetFrozen (fun _ => ⟨true, false⟩)
          (sectionInit (⟨[("a", some (1 : Nat))], 0⟩ : PyInst Nat)
            [("b", some 2)]).optId false)
        ["a"] ⟨"a", none, fun v => some v⟩
        ⟨[("a", some (1 : Nat))], 0⟩ (some 9)
      = .ok ⟨[("a", some 9)], 0⟩ := by
  rfl

/-- C6 (amended): a section adopts the parent options object, so
unfreezing one nested section instance unfreezes every instance sharing
that options object, its ancestors and siblings included: after the
unfreeze, the shared frozen flag is false and no write through setattr
on any such instance is rejected with the frozen error. -/
theorem unfreeze_section_unfreezes_whole_tree {V : Type} (store : OptStore)
    (parent : PyInst V) (secData : List (String × Option V))
    (other : PyInst V) (hshare : other.optId = parent.optId) :
    ((storeSetFrozen store (sectionInit parent secData).optId false)
        other.optId).frozen = false ∧
    (∀ (fields : List String) (f : DataFieldM V) (value : Option V),
      configSetattr
          (storeSetFrozen store (sectionInit parent secData).optId false)
          fields f other value ≠ .error .frozenConfigError) := by
  have hflag : ((storeSetFrozen store (sectionInit parent secData).optId false)
      other.optId).frozen = false := by
    simp [storeSetFrozen, sectionInit, hshare]
  refine ⟨hflag, ?_⟩
  intro fields f value
  unfold configSetattr
  rw [if_neg (by rw [hflag]; exact fun h => by simp at h)]
  unfold fieldSet
  rw [if_neg (by rw [hflag]; exact fun h => by simp at h)]
  rcases hc : f.convert value with e | cv
  · have he := convert_error_is_type_error f value e hc
    subst he
    simp
  · simp

/-- Witness for the amended C6 at a concrete input: with everything
frozen, unfreezing the section makes the flag observed by the parent
false. -/
theorem unfreeze_section_unfreezes_whole_tree_witness :
    ((storeSetFrozen (fun _ => ⟨true, false⟩)
        (sectionInit (⟨[("a", some (1 : Nat))], 0⟩ : PyInst Nat)
          [("b", some 2)]).optId false)
      (⟨[("a", some (1 : Nat))], 0⟩ : PyInst Nat).optId).frozen = false :=
  (unfreeze_section_unfreezes_whole_tree (fun _ => ⟨true, false⟩)
    ⟨[("a", some (1 : Nat))], 0⟩ [("b", some 2)]
    ⟨[("a", some (1 : Nat))], 0⟩ rfl).1

/-- Counterexample to C10 as stated: on a frozen instance whose field a
already holds a value, the reset performed by item deletion does not
succeed; it is rejected by the frozen guard, so assigning MISSING does
not ALWAYS succeed. -/
theorem delitem_on_frozen_counterexample :
    delItem (fun _ => ⟨true, false⟩) ["a"] ⟨"a", none, fun v => some v⟩
        ⟨[("a", some (3 : Nat))], 0⟩
      = .error .frozenConfigError := by
  rfl

/-- C10 (amended): DataField.convert applied to MISSING returns MISSING
for every field, whatever converter or declared type the field carries,
so neither is invoked and no conversion error can arise; consequently,
on an instance whose shared options are not frozen, assigning MISSING to
a data field, and in particular the reset performed by item deletion,
always succeeds and stores MISSING.  On a frozen instance the deletion
instead fails with the frozen error, never a conversion error. -/
theorem convert_missing_skips_conversion {V : Type} (f : DataFieldM V)
    (store : OptStore) (fields : List String) (inst : PyInst V)
    (hmut : (store inst.optId).frozen = false) :
    f.convert none = .ok none ∧
    delItem store fields f inst
      = .ok { inst with data := dictSet inst.data f.name none } := by
  refine ⟨rfl, ?_⟩
  unfold delItem configSetattr
  rw [if_neg (by rw [hmut]; exact fun h => by simp at h)]
  unfold fieldSet
  rw [if_neg (by rw [hmut]; exact fun h => by have h2 := h.2; simp at h2)]
  rfl

/-- Witness for the amended C10 at a concrete input: a field whose
converter and declared type both reject every value still converts
MISSING to MISSING, and item deletion on a mutable instance resets the
stored 5 to MISSING. -/
theorem convert_missing_skips_conversion_witness :
    DataFieldM.convert ⟨"a", some (fun _ => none), fun _ => none⟩
        (none : Option Nat) = .ok none ∧
    delItem (fun _ => ⟨false, false⟩) ["a"]
        ⟨"a", some (fun _ => none), fun _ => none⟩
        ⟨[("a", some (5 : Nat))], 0⟩
      = .ok ⟨[("a", none)], 0⟩ := by
  have h := convert_missing_skips_conversion
    (⟨"a", some (fun _ => none), fun _ => none⟩ : DataFieldM Nat)
    (fun _ => ⟨false, false⟩) ["a"] ⟨[("a", some (5 : Nat))], 0⟩ rfl
  exact h

/-- Embedding of the binding state of a Field descriptor
(src/lib/cffm/field.py lines 20-30): the name and owning schema class of
the field, both absent before binding; owners are identified by schema
class name. -/
structure FieldBind where
  name : Option String
  config_cls : Option String
deriving DecidableEq

/-- Embedding of the set-name hook of Field (src/lib/cffm/field.py lines
28-30): unconditionally overwrite the stored name and owner through
object-level attribute assignment; the source performs no rebinding
check and raises nothing. -/
def setName (f : FieldBind) (owner : String) (nm : String) : FieldBind :=
  { f with name := some nm, config_cls := some owner }

/-- Counterexample to C8 as stated: binding a field to schema A as x and
then rebinding the same Field object to schema B as y succeeds, raises
no SchemaError, and changes the owner from A to B instead of leaving the
original binding unchanged. -/
theorem rebind_field_counterexample :
    setName (setName ⟨none, none⟩ "A" "x") "B" "y" = ⟨some "y", some "B"⟩
    ∧ (setName (setName ⟨none, none⟩ "A" "x") "B" "y").config_cls
      ≠ (setName (⟨none, none⟩ : FieldBind) "A" "x").config_cls := by
  exact ⟨rfl, by decide⟩

/-- C8 (amended): binding a Field assigns its name and owner; a
subsequent rebinding, to the same or a different schema class, silently
overwrites both with the new name and owner and raises nothing, since
the source performs no exactly-once check. -/
theorem set_name_overwrites (f : FieldBind) (o1 n1 o2 n2 : String) :
    setName f o1 n1 = ⟨some n1, some o1⟩ ∧
    setName (setName f o1 n1) o2 n2 = ⟨some n2, some o2⟩ :=
  ⟨rfl, rfl⟩

/-- Schema shape for the sharing argument: a schema is its tree of
nested section schemas (leaf data fields are irrelevant to the frozen
flag). -/
inductive SchemaT where
  | mk : List SchemaT → SchemaT

/-- Instance tree: every node records the heap identity of the options
object it observes, plus its constructed section instances. -/
inductive InstT where
  | node : Nat → List InstT → InstT

mutual

/-- Embedding of recursive instance construction: a Config instance with
options identity opt constructs every section through Section
construction (src/lib/cffm/config.py lines 120-127), which adopts the
options object of the parent, and sections construct their own
subsections the same way. -/
def buildTree (opt : Nat) : SchemaT → InstT
  | .mk secs => .node opt (buildTreeList opt secs)

def buildTreeList (opt : Nat) : List SchemaT → List InstT
  | [] => []
  | s :: rest => buildTree opt s :: buildTreeList opt rest

end

/-- Options identity observed by one instance node. -/
def InstT.optId : InstT → Nat
  | .node i _ => i

mutual

/-- All instance nodes of a tree, the root included. -/
def treeNodes : InstT → List InstT
  | .node i cs => .node i cs :: treeNodesList cs

def treeNodesList : List InstT → List InstT
  | [] => []
  | t :: ts => treeNodes t ++ treeNodesList ts

end

mutual

theorem buildTree_optId (opt : Nat) : ∀ (s : SchemaT) (n : InstT),
    n ∈ treeNodes (buildTree opt s) → n.optId = opt
  | .mk secs, n, h => by
    rw [buildTree, treeNodes] at h
    rcases List.mem_cons.mp h with h1 | h2
    · subst h1; rfl
    · exact buildTreeList_optId opt secs n h2

theorem buildTreeList_optId (opt : Nat) : ∀ (l : List SchemaT) (n : InstT),
    n ∈ treeNodesList (buildTreeList opt l) → n.optId = opt
  | [], n, h => by
    rw [buildTreeList, treeNodesList] at h
    simp at h
  | s :: rest, n, h => by
    rw [buildTreeList, treeNodesList] at h
    rcases List.mem_append.mp h with h1 | h2
    · exact buildTree_optId opt s n h1
    · exact buildTreeList_optId opt rest n h2

end

/-- C9: every Section instance shares the identical ConfigOptions object
with the parent it was constructed with, so in an instance tree built
from one root options identity each node observes that same identity:
any two nodes observe one frozen flag, and freezing or unfreezing the
options object through any node changes the flag observed by every node
simultaneously. -/
theorem section_tree_shares_options (s : SchemaT) (opt : Nat)
    (store : OptStore) (n m : InstT)
    (hn : n ∈ treeNodes (buildTree opt s))
    (hm : m ∈ treeNodes (buildTree opt s)) :
    n.optId = m.optId ∧
    (store n.optId).frozen = (store m.optId).frozen ∧
    ((storeSetFrozen store m.optId true) n.optId).frozen = true ∧
    ((storeSetFrozen store m.optId false) n.optId).frozen = false := by
  have h1 := buildTree_optId opt s n hn
  have h2 := buildTree_optId opt s m hm
  refine ⟨h1.trans h2.symm, by rw [h1, h2], ?_, ?_⟩ <;>
    simp [storeSetFrozen, h1, h2]

/-- Witness for C9 at a concrete input: in a two-level tree built from
options identity 0, the nested section and the root observe the same
identity, and unfreezing through the section is seen by the root. -/
theorem section_tree_shares_options_witness :
    (InstT.node 0 []).optId = (InstT.node 0 [InstT.node 0 []]).optId ∧
    ((fun _ => (⟨true, false⟩ : ConfigOptions)) (InstT.node 0 []).optId).frozen
      = ((fun _ => (⟨true, false⟩ : ConfigOptions))
          (InstT.node 0 [InstT.node 0 []]).optId).frozen ∧
    ((storeSetFrozen (fun _ => ⟨true, false⟩)
        (InstT.node 0 [InstT.node 0 []]).optId true)
      (InstT.node 0 []).optId).frozen = true ∧
    ((storeSetFrozen (fun _ => ⟨true, false⟩)
        (InstT.node 0 [InstT.node 0 []]).optId false)
      (InstT.node 0 []).optId).frozen = false :=
  section_tree_shares_options (.mk [.mk []]) 0 (fun _ => ⟨true, false⟩)
    (InstT.node 0 []) (InstT.node 0 [InstT.node 0 []])
    (by simp [buildTree, buildTreeList, treeNodes, treeNodesList])
    (by simp [buildTree, buildTreeList, treeNodes, treeNodesList])

end Cffm
